import Mathlib

/-!
Shallow embedding of `movie_bot.py` (a Telegram movie-delivery bot) and of the
supporting pieces of `app.py`, together with theorems settling the spec claims.

The reference store is the SQLite table `movie_items`
(`id INTEGER PRIMARY KEY AUTOINCREMENT, movie_id, from_chat_id,
from_message_id, caption`).  We model it as a list of rows in insertion order
together with the next autoincrement id.  Handler side effects (Telegram API
calls and sleeps) are recorded as an explicit trace of `Action`s; the outcome
of each fallible transport call is supplied by an oracle.
-/

namespace MovieBot

/-- One row of the `movie_items` table. -/
structure MovieItem where
  id : Nat
  movie_id : String
  from_chat_id : Int
  from_message_id : Int
  caption : String
deriving DecidableEq, Repr

/-- The `movies.db` database: the `movie_items` rows in insertion order,
plus the next AUTOINCREMENT value for `id`. -/
structure DB where
  rows : List MovieItem
  nextId : Nat
deriving DecidableEq, Repr

/-- The save handler's
`INSERT INTO movie_items (movie_id, from_chat_id, from_message_id, caption) VALUES (?, ?, ?, ?)`:
appends one row with the next autoincrement id. -/
def DB.insert (db : DB) (code : String) (fromChat fromMsg : Int) (cap : String) : DB :=
  ⟨db.rows ++ [⟨db.nextId, code, fromChat, fromMsg, cap⟩], db.nextId + 1⟩

/-- The start handler's
`SELECT id, from_chat_id, from_message_id, caption FROM movie_items WHERE movie_id = ? ORDER BY id ASC`. -/
def DB.findByCode (db : DB) (code : String) : List MovieItem :=
  (db.rows.filter (fun r => r.movie_id == code)).insertionSort (fun a b => a.id ≤ b.id)

/-- The clear handler's `SELECT COUNT(*) FROM movie_items WHERE movie_id = ?`. -/
def DB.countByCode (db : DB) (code : String) : Nat :=
  (db.rows.filter (fun r => r.movie_id == code)).length

/-- The clear handler's `DELETE FROM movie_items WHERE movie_id = ?`. -/
def DB.deleteByCode (db : DB) (code : String) : DB :=
  ⟨db.rows.filter (fun r => !(r.movie_id == code)), db.nextId⟩

/-- The list handler's `SELECT movie_id, COUNT(*) FROM movie_items GROUP BY movie_id`
(SQLite reports one row per distinct code; the row order is not specified by the
query, we determinize to first-occurrence order). -/
def DB.countsByCode (db : DB) : List (String × Nat) :=
  ((db.rows.map (fun r => r.movie_id)).eraseDups).map (fun c => (c, db.countByCode c))

/-- Python `str.strip()` whitespace test, restricted to the ASCII whitespace
characters (space, tab, newline, carriage return, vertical tab, form feed);
the codes occurring in bot commands are ASCII. -/
def isPySpace (c : Char) : Bool :=
  c == Char.ofNat 32 || c == Char.ofNat 9 || c == Char.ofNat 10 || c == Char.ofNat 13 ||
    c == Char.ofNat 11 || c == Char.ofNat 12

/-- Python `s.strip()`: remove leading and trailing whitespace. -/
def pyStrip (s : String) : String :=
  String.mk (((s.data.dropWhile isPySpace).reverse.dropWhile isPySpace).reverse)

/-- Python `x or ""` on an optional string: `None` and `""` are falsy. -/
def pyOrEmpty : Option String → String
  | none => ""
  | some s => if s == "" then "" else s

/-- The replied-to Telegram message as the save handler reads it. -/
structure Message where
  message_id : Int
  caption : Option String
deriving DecidableEq, Repr

/-- The parts of a `telegram.Update` (with its parsed `context.args`) that the
handlers read: `update.effective_user.id`, `update.effective_chat.id`,
`context.args`, and `update.message.reply_to_message`. -/
structure Upd where
  user_id : Int
  chat_id : Int
  args : List String
  reply_to : Option Message
deriving DecidableEq, Repr

/-- `AUTO_DELETE_SECONDS = 120  # 2 minutes`. -/
def AUTO_DELETE_SECONDS : Rat := 120

/-- One observable side effect of a handler run: a Telegram API call, an
`asyncio.sleep`, or the creation of the deferred `delete_later` task. -/
inductive Action where
  | replyText (text : String)
  | copyMessage (chat_id from_chat_id message_id : Int)
  | sendMessage (chat_id : Int) (text : String)
  | sleep (seconds : Rat)
  | deleteMessage (chat_id message_id : Int)
  | scheduleDeleteLater (lst : List (Int × Int)) (delay : Rat)
deriving DecidableEq, Repr

/-- Outcome of one `bot.copy_message` call: the sent message id, or the
exception it raised (rendered as a string, as the handler interpolates it). -/
inductive CopyRes where
  | ok (message_id : Int)
  | err (e : String)
deriving DecidableEq, Repr

def CopyRes.isOk : CopyRes → Bool
  | .ok _ => true
  | .err _ => false

/-- `save_handler`: admin gate, argument check, reply-to check, then one
INSERT and a confirmation. -/
def save_handler (ADMIN_ID : Int) (u : Upd) (db : DB) : DB × List Action :=
  if u.user_id ≠ ADMIN_ID then
    (db, [Action.replyText "Unauthorized. Only admin can save movies."])
  else
    match u.args with
    | [] => (db, [Action.replyText
        "Usage: reply to the movie message in the storage channel with: /save movie123"])
    | a :: _ =>
      let movie_id := pyStrip a
      match u.reply_to with
      | none => (db, [Action.replyText
          "Reply to the message that contains the movie (in the storage channel)."])
      | some m =>
        let cap := pyOrEmpty m.caption
        (db.insert movie_id u.chat_id m.message_id cap,
         [Action.replyText ("Saved item for movie_id=\x27" ++ movie_id ++
           "\x27 from chat " ++ toString u.chat_id ++ " msg " ++
           toString m.message_id ++ ".")])

/-- `clear_handler`: admin gate, argument check, count, then either the
"no items" reply or a DELETE plus the "Cleared" reply. -/
def clear_handler (ADMIN_ID : Int) (u : Upd) (db : DB) : DB × List Action :=
  if u.user_id ≠ ADMIN_ID then
    (db, [Action.replyText "Unauthorized."])
  else
    match u.args with
    | [] => (db, [Action.replyText
        "Usage: /clear movie123  — deletes all saved items for that code."])
    | a :: _ =>
      let movie_id := pyStrip a
      let count := db.countByCode movie_id
      if count = 0 then
        (db, [Action.replyText ("No items found for \x27" ++ movie_id ++ "\x27.")])
      else
        (db.deleteByCode movie_id,
         [Action.replyText ("Cleared " ++ toString count ++ " items for \x27" ++
           movie_id ++ "\x27.")])

/-- The failure notice sent when one `bot.copy_message` raises `e`. -/
def failText (movie_id e : String) : String :=
  "(Failed to send one item for \x27" ++ movie_id ++ "\x27: " ++ e ++ ")"

/-- The start handler's `for item in rows:` loop.  For each row it invokes
`bot.copy_message`; on success it appends the delivered pair to
`sent_messages` and sleeps 0.5, on an exception it sends the failure notice
and continues.  `out i` is the outcome of the copy call of iteration `i`.
Returns the final `sent_messages` list and the emitted trace. -/
def deliverLoop (movie_id : String) (uc : Int) (out : Nat → CopyRes) :
    List MovieItem → Nat → List (Int × Int) → List (Int × Int) × List Action
  | [], _, sent => (sent, [])
  | r :: rest, i, sent =>
    match out i with
    | CopyRes.ok sid =>
      let res := deliverLoop movie_id uc out rest (i + 1) (sent ++ [(uc, sid)])
      (res.1, Action.copyMessage uc r.from_chat_id r.from_message_id ::
        Action.sleep (1 / 2) :: res.2)
    | CopyRes.err e =>
      let res := deliverLoop movie_id uc out rest (i + 1) sent
      (res.1, Action.copyMessage uc r.from_chat_id r.from_message_id ::
        Action.sendMessage uc (failText movie_id e) :: res.2)

/-- `start_handler`: argument check, SELECT, "not found" on empty, otherwise
the delivery loop followed (iff `sent_messages` is nonempty) by the creation
of the `delete_later` task.  The database is only read. -/
def start_handler (u : Upd) (db : DB) (out : Nat → CopyRes) : DB × List Action :=
  match u.args with
  | [] => (db, [Action.replyText "Open this bot from a channel poster button."])
  | a :: _ =>
    let movie_id := pyStrip a
    let rows := db.findByCode movie_id
    if rows.isEmpty then
      (db, [Action.replyText "Sorry, movie not found or expired."])
    else
      let res := deliverLoop movie_id u.chat_id out rows 0 []
      if res.1.isEmpty then (db, res.2)
      else (db, res.2 ++ [Action.scheduleDeleteLater res.1 AUTO_DELETE_SECONDS])

/-- Body of the deferred `delete_later` task after its sleep: one
`bot.delete_message` attempt per delivered pair.  `delOut i` says whether
attempt `i` succeeds; a raised exception is swallowed by
`except Exception: pass`, so both branches continue identically. -/
def delete_later_go (delOut : Nat → Bool) : List (Int × Int) → Nat → List Action
  | [], _ => []
  | p :: rest, i =>
    if delOut i then
      Action.deleteMessage p.1 p.2 :: delete_later_go delOut rest (i + 1)
    else
      Action.deleteMessage p.1 p.2 :: delete_later_go delOut rest (i + 1)

/-- The deferred `delete_later(lst, delay)` task: sleep `delay`, then try to
delete every delivered message. -/
def delete_later (lst : List (Int × Int)) (delay : Rat) (delOut : Nat → Bool) :
    List Action :=
  Action.sleep delay :: delete_later_go delOut lst 0

/-- The list handler's report text. -/
def listText (rows : List (String × Nat)) : String :=
  rows.foldl (fun acc r =>
    acc ++ r.1 ++ "  → " ++ toString r.2 ++ " item(s)\n")
    "Saved movie codes and counts:\n"

/-- `list_handler`: admin gate, then the grouped counts report. -/
def list_handler (ADMIN_ID : Int) (u : Upd) (db : DB) : DB × List Action :=
  if u.user_id ≠ ADMIN_ID then
    (db, [Action.replyText "Unauthorized."])
  else
    let rows := db.countsByCode
    if rows.isEmpty then
      (db, [Action.replyText "No saved movie items."])
    else
      (db, [Action.replyText (listText rows)])

/-- One inbound command, as dispatched by `main`'s `CommandHandler`s. -/
inductive Cmd where
  | save (u : Upd)
  | clear (u : Upd)
  | start (u : Upd) (out : Nat → CopyRes)
  | list (u : Upd)

/-- Top-level dispatch: one inbound command run against the store. -/
def step (ADMIN_ID : Int) (c : Cmd) (db : DB) : DB × List Action :=
  match c with
  | Cmd.save u => save_handler ADMIN_ID u db
  | Cmd.clear u => clear_handler ADMIN_ID u db
  | Cmd.start u out => start_handler u db out
  | Cmd.list u => list_handler ADMIN_ID u db

/-!  Statement apparatus: invariants and trace observations used to phrase the
claims.  These are not part of the embedded program. -/

/-- Store well-formedness maintained by the AUTOINCREMENT primary key: row ids
strictly increase in insertion order and stay below the next id. -/
def DB.WF (db : DB) : Prop :=
  db.rows.Pairwise (fun a b => a.id < b.id) ∧ ∀ r ∈ db.rows, r.id < db.nextId

def isCopy : Action → Bool
  | Action.copyMessage _ _ _ => true
  | _ => false

def isSchedule : Action → Bool
  | Action.scheduleDeleteLater _ _ => true
  | _ => false

/-- `bot.send_message` occurs in the start handler only as the per-item
failure notice. -/
def isFailNotice : Action → Bool
  | Action.sendMessage _ _ => true
  | _ => false

/-- Is this action a sleep of at least `q` time units? -/
def sleepGe (q : Rat) : Action → Bool
  | Action.sleep t => decide (q ≤ t)
  | _ => false

/-- Number of failed copy outcomes among iterations `i, i+1, …, i+n-1`. -/
def errCount (out : Nat → CopyRes) : Nat → Nat → Nat
  | _, 0 => 0
  | i, n + 1 => (if (out i).isOk then 0 else 1) + errCount out (i + 1) n

/-- The `sent_messages` list the delivery loop accumulates over `rows`
starting at iteration `i`: one `(user_chat_id, sent.message_id)` pair per
successful copy, in order. -/
def sentSpec (uc : Int) (out : Nat → CopyRes) : List MovieItem → Nat → List (Int × Int)
  | [], _ => []
  | _ :: rest, i =>
    match out i with
    | CopyRes.ok sid => (uc, sid) :: sentSpec uc out rest (i + 1)
    | CopyRes.err _ => sentSpec uc out rest (i + 1)

/-- `N` sequential admin saves for one code: fold the save handler's INSERT
over the list of `(from_chat_id, from_message_id, caption)` payloads. -/
def insertMany (db : DB) (code : String) (its : List (Int × Int × String)) : DB :=
  its.foldl (fun d it => d.insert code it.1 it.2.1 it.2.2) db

/-- The rows `insertMany` creates: payloads in order, with consecutive ids
starting at `n`. -/
def newRows (code : String) : Nat → List (Int × Int × String) → List MovieItem
  | _, [] => []
  | n, it :: rest => ⟨n, code, it.1, it.2.1, it.2.2⟩ :: newRows code (n + 1) rest

/-- Split a trace at its copy actions: each time a copy is reached, emit the
(reversed) accumulator of actions seen since the previous copy.  The first
emitted list is the prefix before the first copy; actions after the last copy
are never emitted. -/
def gapGo : List Action → List Action → List (List Action)
  | _, [] => []
  | acc, x :: rest =>
    if isCopy x then acc.reverse :: gapGo [] rest
    else gapGo (x :: acc) rest

/-- The gaps strictly between successive copy actions of a trace. -/
def innerGaps (acts : List Action) : List (List Action) :=
  (gapGo [] acts).drop 1

/-- What the delivery loop actually puts between successive copies: a 0.5
sleep after a successful copy, the failure notice after a failed one. -/
def gapsSpec (uc : Int) (mid : String) (out : Nat → CopyRes) :
    List MovieItem → Nat → List (List Action)
  | [], _ => []
  | [_], _ => []
  | _ :: r2 :: rest, i =>
    (match out i with
     | CopyRes.ok _ => [Action.sleep (1 / 2)]
     | CopyRes.err e => [Action.sendMessage uc (failText mid e)]) ::
    gapsSpec uc mid out (r2 :: rest) (i + 1)

/-!  Helper lemmas. -/

theorem insertionSort_id_eq_self {l : List MovieItem}
    (h : l.Pairwise (fun a b => a.id < b.id)) :
    l.insertionSort (fun a b => a.id ≤ b.id) = l :=
  List.Sorted.insertionSort_eq (h.imp (fun hab => Nat.le_of_lt hab))

/-- On a well-formed store the `ORDER BY id ASC` is the identity: the SELECT
returns the matching rows in insertion order. -/
theorem DB.findByCode_eq_filter {db : DB} (h : db.WF) (c : String) :
    db.findByCode c = db.rows.filter (fun r => r.movie_id == c) :=
  insertionSort_id_eq_self (h.1.sublist (List.filter_sublist _))

theorem DB.WF_insert {db : DB} (h : db.WF) (c : String) (x y : Int) (cap : String) :
    (db.insert c x y cap).WF := by
  obtain ⟨h1, h2⟩ := h
  constructor
  · simp only [DB.insert, List.pairwise_append, List.pairwise_cons]
    refine ⟨h1, by simp, ?_⟩
    intro a ha b hb
    simp only [List.mem_singleton] at hb
    subst hb
    exact h2 a ha
  · intro r hr
    simp only [DB.insert, List.mem_append, List.mem_singleton] at hr
    rcases hr with hr | hr
    · exact Nat.lt_succ_of_lt (h2 r hr)
    · subst hr
      exact Nat.lt_succ_self _

theorem insertMany_spec (c : String) (its : List (Int × Int × String)) :
    ∀ (db : DB), db.WF →
      (insertMany db c its).WF ∧
      (insertMany db c its).rows.filter (fun r => r.movie_id == c) =
        db.rows.filter (fun r => r.movie_id == c) ++ newRows c db.nextId its := by
  induction its with
  | nil => intro db h; simpa [insertMany, newRows] using h
  | cons it rest ih =>
    intro db h
    have hWF : (db.insert c it.1 it.2.1 it.2.2).WF := DB.WF_insert h c it.1 it.2.1 it.2.2
    have step := ih (db.insert c it.1 it.2.1 it.2.2) hWF
    refine ⟨by simpa [insertMany] using step.1, ?_⟩
    have hfil : (db.insert c it.1 it.2.1 it.2.2).rows.filter (fun r => r.movie_id == c) =
        db.rows.filter (fun r => r.movie_id == c) ++ [⟨db.nextId, c, it.1, it.2.1, it.2.2⟩] := by
      simp [DB.insert]
    have h2 := step.2
    rw [hfil] at h2
    have : insertMany db c (it :: rest) = insertMany (db.insert c it.1 it.2.1 it.2.2) c rest := by
      simp [insertMany]
    rw [this, h2, List.append_assoc]
    simp [DB.insert, newRows]

theorem newRows_map (c : String) (its : List (Int × Int × String)) :
    ∀ n, (newRows c n its).map (fun r => (r.from_chat_id, r.from_message_id, r.caption)) = its := by
  induction its with
  | nil => intro n; simp [newRows]
  | cons it rest ih => intro n; simp [newRows, ih]

theorem newRows_length (c : String) (its : List (Int × Int × String)) :
    ∀ n, (newRows c n its).length = its.length := by
  induction its with
  | nil => intro n; simp [newRows]
  | cons it rest ih => intro n; simp [newRows, ih]

theorem deliverLoop_cons_ok {mid : String} {uc : Int} {out : Nat → CopyRes}
    {r : MovieItem} {rest : List MovieItem} {i : Nat} {sent : List (Int × Int)}
    {sid : Int} (hout : out i = CopyRes.ok sid) :
    (deliverLoop mid uc out (r :: rest) i sent).2 =
      Action.copyMessage uc r.from_chat_id r.from_message_id ::
        Action.sleep (1 / 2) ::
          (deliverLoop mid uc out rest (i + 1) (sent ++ [(uc, sid)])).2 := by
  simp [deliverLoop, hout]

theorem deliverLoop_cons_err {mid : String} {uc : Int} {out : Nat → CopyRes}
    {r : MovieItem} {rest : List MovieItem} {i : Nat} {sent : List (Int × Int)}
    {e : String} (hout : out i = CopyRes.err e) :
    (deliverLoop mid uc out (r :: rest) i sent).2 =
      Action.copyMessage uc r.from_chat_id r.from_message_id ::
        Action.sendMessage uc (failText mid e) ::
          (deliverLoop mid uc out rest (i + 1) sent).2 := by
  simp [deliverLoop, hout]

/-- The final `sent_messages` list is the accumulator followed by one pair per
successful copy, in order. -/
theorem deliverLoop_fst (mid : String) (uc : Int) (out : Nat → CopyRes)
    (rows : List MovieItem) : ∀ (i : Nat) (sent : List (Int × Int)),
    (deliverLoop mid uc out rows i sent).1 = sent ++ sentSpec uc out rows i := by
  induction rows with
  | nil => intro i sent; simp [deliverLoop, sentSpec]
  | cons r rest ih =>
    intro i sent
    cases hout : out i with
    | ok sid => simp [deliverLoop, sentSpec, hout, ih]
    | err e => simp [deliverLoop, sentSpec, hout, ih]

/-- The copy actions of the loop trace: one per row, in stored order,
whatever the outcomes. -/
theorem deliverLoop_filter_copy (mid : String) (uc : Int) (out : Nat → CopyRes)
    (rows : List MovieItem) : ∀ (i : Nat) (sent : List (Int × Int)),
    ((deliverLoop mid uc out rows i sent).2).filter isCopy =
      rows.map (fun r => Action.copyMessage uc r.from_chat_id r.from_message_id) := by
  induction rows with
  | nil => intro i sent; simp [deliverLoop]
  | cons r rest ih =>
    intro i sent
    cases hout : out i with
    | ok sid => simp [deliverLoop, hout, ih, isCopy]
    | err e => simp [deliverLoop, hout, ih, isCopy]

/-- One failure notice per failed copy outcome. -/
theorem deliverLoop_countP_fail (mid : String) (uc : Int) (out : Nat → CopyRes)
    (rows : List MovieItem) : ∀ (i : Nat) (sent : List (Int × Int)),
    ((deliverLoop mid uc out rows i sent).2).countP isFailNotice =
      errCount out i rows.length := by
  induction rows with
  | nil => intro i sent; simp [deliverLoop, errCount]
  | cons r rest ih =>
    intro i sent
    cases hout : out i with
    | ok sid => simp [deliverLoop, hout, ih, isFailNotice, errCount, CopyRes.isOk, List.countP_cons]
    | err e =>
      simp [deliverLoop, hout, ih, isFailNotice, errCount, CopyRes.isOk, List.countP_cons,
        Nat.add_comm]

/-- The loop itself never creates the deferred task. -/
theorem deliverLoop_filter_schedule (mid : String) (uc : Int) (out : Nat → CopyRes)
    (rows : List MovieItem) : ∀ (i : Nat) (sent : List (Int × Int)),
    ((deliverLoop mid uc out rows i sent).2).filter isSchedule = [] := by
  induction rows with
  | nil => intro i sent; simp [deliverLoop]
  | cons r rest ih =>
    intro i sent
    cases hout : out i with
    | ok sid => simp [deliverLoop, hout, ih, isSchedule]
    | err e => simp [deliverLoop, hout, ih, isSchedule]

theorem sentSpec_ne_nil_iff (uc : Int) (out : Nat → CopyRes) (rows : List MovieItem) :
    ∀ i : Nat, sentSpec uc out rows i ≠ [] ↔
      ∃ j, j < rows.length ∧ (out (i + j)).isOk = true := by
  induction rows with
  | nil => intro i; simp [sentSpec]
  | cons r rest ih =>
    intro i
    cases hout : out i with
    | ok sid =>
      simp only [sentSpec, hout]
      constructor
      · intro _
        exact ⟨0, Nat.succ_pos _, by simp [hout, CopyRes.isOk]⟩
      · intro _
        simp
    | err e =>
      simp only [sentSpec, hout]
      rw [ih (i + 1)]
      constructor
      · rintro ⟨j, hj, hok⟩
        refine ⟨j + 1, by simpa using Nat.succ_lt_succ hj, ?_⟩
        have harith : i + (j + 1) = i + 1 + j := by omega
        rw [harith]
        exact hok
      · rintro ⟨j, hj, hok⟩
        cases j with
        | zero => simp [hout, CopyRes.isOk] at hok
        | succ j2 =>
          refine ⟨j2, by simp only [List.length_cons] at hj; omega, ?_⟩
          have harith : i + 1 + j2 = i + (j2 + 1) := by omega
          rw [harith]
          exact hok

/-- The deferred task attempts one delete per delivered message, whatever the
individual outcomes. -/
theorem delete_later_go_eq (delOut : Nat → Bool) (lst : List (Int × Int)) :
    ∀ i : Nat, delete_later_go delOut lst i =
      lst.map (fun p => Action.deleteMessage p.1 p.2) := by
  induction lst with
  | nil => intro i; simp [delete_later_go]
  | cons p rest ih =>
    intro i
    cases h : delOut i <;> simp [delete_later_go, h, ih]

theorem gapGo_cons_copy {x : Action} (hx : isCopy x = true) (acc rest : List Action) :
    gapGo acc (x :: rest) = acc.reverse :: gapGo [] rest := by
  simp [gapGo, hx]

theorem gapGo_cons_noCopy {x : Action} (hx : isCopy x = false) (acc rest : List Action) :
    gapGo acc (x :: rest) = gapGo (x :: acc) rest := by
  simp [gapGo, hx]

theorem gapGo_noCopy (l : List Action) : ∀ acc : List Action,
    (∀ x ∈ l, isCopy x = false) → gapGo acc l = [] := by
  induction l with
  | nil => intro acc _; simp [gapGo]
  | cons x rest ih =>
    intro acc h
    rw [gapGo_cons_noCopy (h x (by simp))]
    exact ih _ (fun y hy => h y (by simp [hy]))

/-- Splitting the loop trace (followed by any copy-free tail) at its copy
actions yields the accumulator prefix and then exactly the `gapsSpec` gaps. -/
theorem gapGo_deliver (mid : String) (uc : Int) (out : Nat → CopyRes) :
    ∀ (rest : List MovieItem) (r : MovieItem) (i : Nat) (acc : List Action)
      (sent : List (Int × Int)) (tail : List Action),
      (∀ x ∈ tail, isCopy x = false) →
      gapGo acc ((deliverLoop mid uc out (r :: rest) i sent).2 ++ tail) =
        acc.reverse :: gapsSpec uc mid out (r :: rest) i := by
  intro rest
  induction rest with
  | nil =>
    intro r i acc sent tail htail
    cases hout : out i with
    | ok sid =>
      rw [deliverLoop_cons_ok hout]
      simp only [deliverLoop, List.cons_append, List.nil_append]
      rw [gapGo_cons_copy (by simp [isCopy]) acc,
        gapGo_cons_noCopy (by simp [isCopy]) [],
        gapGo_noCopy tail _ htail]
      simp [gapsSpec]
    | err e =>
      rw [deliverLoop_cons_err hout]
      simp only [deliverLoop, List.cons_append, List.nil_append]
      rw [gapGo_cons_copy (by simp [isCopy]) acc,
        gapGo_cons_noCopy (by simp [isCopy]) [],
        gapGo_noCopy tail _ htail]
      simp [gapsSpec]
  | cons r2 rest2 ih =>
    intro r i acc sent tail htail
    cases hout : out i with
    | ok sid =>
      rw [deliverLoop_cons_ok hout]
      simp only [List.cons_append]
      rw [gapGo_cons_copy (by simp [isCopy]) acc,
        gapGo_cons_noCopy (by simp [isCopy]) [],
        ih r2 (i + 1) [Action.sleep (1 / 2)] (sent ++ [(uc, sid)]) tail htail]
      simp [gapsSpec, hout]
    | err e =>
      rw [deliverLoop_cons_err hout]
      simp only [List.cons_append]
      rw [gapGo_cons_copy (by simp [isCopy]) acc,
        gapGo_cons_noCopy (by simp [isCopy]) [],
        ih r2 (i + 1) [Action.sendMessage uc (failText mid e)] sent tail htail]
      simp [gapsSpec, hout]

/-- Every inner gap the loop produces is either the 0.5 sleep or a single
failure notice. -/
theorem gapsSpec_mem (uc : Int) (mid : String) (out : Nat → CopyRes)
    (rows : List MovieItem) : ∀ (i : Nat) (g : List Action),
    g ∈ gapsSpec uc mid out rows i →
      g = [Action.sleep (1 / 2)] ∨
        ∃ e, g = [Action.sendMessage uc (failText mid e)] := by
  induction rows with
  | nil => intro i g hg; simp [gapsSpec] at hg
  | cons r rest ih =>
    intro i g hg
    cases rest with
    | nil => simp [gapsSpec] at hg
    | cons r2 rest2 =>
      simp only [gapsSpec, List.mem_cons] at hg
      rcases hg with hg | hg
      · cases hout : out i with
        | ok sid => left; rw [hg]; simp [hout]
        | err e => right; exact ⟨e, by rw [hg]; simp [hout]⟩
      · exact ih (i + 1) g hg

/-- Unfolding of a successful delivery run: the loop trace followed by the
deferred-task creation iff some copy succeeded. -/
theorem start_handler_run (u : Upd) (db : DB) (out : Nat → CopyRes)
    (a : String) (rest : List String) (hargs : u.args = a :: rest)
    (hne : db.findByCode (pyStrip a) ≠ []) :
    start_handler u db out =
      (db,
        (deliverLoop (pyStrip a) u.chat_id out (db.findByCode (pyStrip a)) 0 []).2 ++
          (if (sentSpec u.chat_id out (db.findByCode (pyStrip a)) 0).isEmpty then []
           else [Action.scheduleDeleteLater
             (sentSpec u.chat_id out (db.findByCode (pyStrip a)) 0) AUTO_DELETE_SECONDS])) := by
  have hfst := deliverLoop_fst (pyStrip a) u.chat_id out (db.findByCode (pyStrip a)) 0 []
  rw [List.nil_append] at hfst
  simp only [start_handler, hargs]
  rw [if_neg (by simp [hne]), hfst]
  cases hse : (sentSpec u.chat_id out (db.findByCode (pyStrip a)) 0).isEmpty with
  | true => simp [hse]
  | false => simp [hse]

/-- The start handler only reads the store, in every branch. -/
theorem start_handler_fst (u : Upd) (db : DB) (out : Nat → CopyRes) :
    (start_handler u db out).1 = db := by
  unfold start_handler
  cases u.args with
  | nil => rfl
  | cons a rst =>
    simp only []
    split
    · rfl
    · split <;> rfl

/-- The list handler only reads the store, in every branch. -/
theorem list_handler_fst (ADMIN_ID : Int) (u : Upd) (db : DB) :
    (list_handler ADMIN_ID u db).1 = db := by
  unfold list_handler
  split
  · rfl
  · cases hdb : db.countsByCode.isEmpty <;> simp [hdb]

/-!  Claim theorems. -/

/-- C1: for every code `c` and every sequence of `N` payloads, after `N`
sequential saves for `c` (each the save handler's INSERT) with no intervening
clear, the start handler's SELECT (`findByCode c`) returns exactly `N` items,
carrying the payloads in insertion order. -/
theorem spec_C1_find_after_inserts (db : DB) (c : String)
    (its : List (Int × Int × String)) (hWF : db.WF)
    (h0 : db.findByCode c = []) :
    ((insertMany db c its).findByCode c).map
        (fun r => (r.from_chat_id, r.from_message_id, r.caption)) = its ∧
    ((insertMany db c its).findByCode c).length = its.length := by
  have hs := insertMany_spec c its db hWF
  have hfil0 : db.rows.filter (fun r => r.movie_id == c) = [] := by
    rw [← DB.findByCode_eq_filter hWF]
    exact h0
  have hfind := DB.findByCode_eq_filter hs.1 c
  rw [hfind, hs.2, hfil0, List.nil_append]
  exact ⟨newRows_map c its db.nextId, newRows_length c its db.nextId⟩

theorem spec_C1_witness :
    ((insertMany ⟨[], 1⟩ "m" [(10, 100, "a"), (10, 101, "")]).findByCode "m").map
        (fun r => (r.from_chat_id, r.from_message_id, r.caption)) =
      [(10, 100, "a"), (10, 101, "")] :=
  (spec_C1_find_after_inserts ⟨[], 1⟩ "m" [(10, 100, "a"), (10, 101, "")]
    ⟨by simp, by simp⟩ (by decide)).1

/-- C4: a caller whose user id differs from the configured admin id gets the
unauthorized reply from each of save, clear and list, and the store is
untouched. -/
theorem spec_C4_unauthorized (ADMIN_ID : Int) (u : Upd) (db : DB)
    (h : u.user_id ≠ ADMIN_ID) :
    save_handler ADMIN_ID u db =
      (db, [Action.replyText "Unauthorized. Only admin can save movies."]) ∧
    clear_handler ADMIN_ID u db = (db, [Action.replyText "Unauthorized."]) ∧
    list_handler ADMIN_ID u db = (db, [Action.replyText "Unauthorized."]) := by
  refine ⟨?_, ?_, ?_⟩ <;> simp [save_handler, clear_handler, list_handler, h]

theorem spec_C4_witness :
    save_handler 2 ⟨1, 5, [], none⟩ ⟨[], 1⟩ =
      (⟨[], 1⟩, [Action.replyText "Unauthorized. Only admin can save movies."]) :=
  (spec_C4_unauthorized 2 ⟨1, 5, [], none⟩ ⟨[], 1⟩ (by decide)).1

/-- C5: when the lookup for the requested code is empty, the start handler
reports "not found" and stops: no copy, no deferred task, store unchanged. -/
theorem spec_C5_not_found (u : Upd) (db : DB) (out : Nat → CopyRes)
    (a : String) (rest : List String) (hargs : u.args = a :: rest)
    (hempty : db.findByCode (pyStrip a) = []) :
    start_handler u db out =
      (db, [Action.replyText "Sorry, movie not found or expired."]) ∧
    (start_handler u db out).2.countP isCopy = 0 ∧
    (start_handler u db out).2.countP isSchedule = 0 := by
  have hmain : start_handler u db out =
      (db, [Action.replyText "Sorry, movie not found or expired."]) := by
    simp [start_handler, hargs, hempty]
  refine ⟨hmain, ?_, ?_⟩ <;> rw [hmain] <;> simp [isCopy, isSchedule]

theorem spec_C5_witness :
    start_handler ⟨1, 5, ["zzz"], none⟩ ⟨[], 1⟩ (fun _ => CopyRes.ok 0) =
      (⟨[], 1⟩, [Action.replyText "Sorry, movie not found or expired."]) :=
  (spec_C5_not_found ⟨1, 5, ["zzz"], none⟩ ⟨[], 1⟩ (fun _ => CopyRes.ok 0)
    "zzz" [] rfl (by decide)).1

/-- C10: a successful admin save inserts exactly one item, and its caption is
the empty string whenever the replied-to message has no caption. -/
theorem spec_C10_save_one_item (ADMIN_ID : Int) (u : Upd) (db : DB)
    (a : String) (rest : List String) (m : Message)
    (hAdmin : u.user_id = ADMIN_ID) (hargs : u.args = a :: rest)
    (hreply : u.reply_to = some m) :
    (save_handler ADMIN_ID u db).1.rows =
      db.rows ++ [⟨db.nextId, pyStrip a, u.chat_id, m.message_id, pyOrEmpty m.caption⟩] ∧
    (m.caption = none → pyOrEmpty m.caption = "") := by
  constructor
  · simp [save_handler, hAdmin, hargs, hreply, DB.insert]
  · intro hc
    simp [hc, pyOrEmpty]

theorem spec_C10_witness :
    (save_handler 2 ⟨2, 5, ["m"], some ⟨42, none⟩⟩ ⟨[], 1⟩).1.rows =
      [⟨1, "m", 5, 42, ""⟩] := by
  have h := (spec_C10_save_one_item 2 ⟨2, 5, ["m"], some ⟨42, none⟩⟩ ⟨[], 1⟩
    "m" [] ⟨42, none⟩ rfl rfl rfl).1
  have e1 : pyStrip "m" = "m" := by decide
  rw [e1] at h
  simpa [pyOrEmpty] using h

/-- C6: an admin clear for code `c` removes all items of code `c` and no
others, reports the deleted count, or reports "none found" and deletes
nothing when the count is zero; afterwards `findByCode c` is empty and every
other code is unchanged. -/
theorem spec_C6_clear (ADMIN_ID : Int) (u : Upd) (db : DB) (a : String)
    (rest : List String) (hAdmin : u.user_id = ADMIN_ID) (hargs : u.args = a :: rest) :
    (db.countByCode (pyStrip a) = 0 →
      clear_handler ADMIN_ID u db =
        (db, [Action.replyText ("No items found for \x27" ++ pyStrip a ++ "\x27.")])) ∧
    (db.countByCode (pyStrip a) ≠ 0 →
      (clear_handler ADMIN_ID u db).2 =
        [Action.replyText ("Cleared " ++ toString (db.countByCode (pyStrip a)) ++
          " items for \x27" ++ pyStrip a ++ "\x27.")] ∧
      (clear_handler ADMIN_ID u db).1.rows =
        db.rows.filter (fun r => !(r.movie_id == pyStrip a)) ∧
      (clear_handler ADMIN_ID u db).1.findByCode (pyStrip a) = [] ∧
      ∀ c2, c2 ≠ pyStrip a →
        (clear_handler ADMIN_ID u db).1.findByCode c2 = db.findByCode c2) := by
  constructor
  · intro h0
    simp [clear_handler, hAdmin, hargs, h0]
  · intro hne
    have hcl : clear_handler ADMIN_ID u db =
        (db.deleteByCode (pyStrip a),
         [Action.replyText ("Cleared " ++ toString (db.countByCode (pyStrip a)) ++
           " items for \x27" ++ pyStrip a ++ "\x27.")]) := by
      simp [clear_handler, hAdmin, hargs, hne]
    rw [hcl]
    refine ⟨rfl, rfl, ?_, ?_⟩
    · simp only [DB.findByCode, DB.deleteByCode, List.filter_filter]
      have hzero : ∀ r : MovieItem,
          ((r.movie_id == pyStrip a) && !(r.movie_id == pyStrip a)) = false := by
        intro r
        cases hb : r.movie_id == pyStrip a <;> simp [hb]
      simp [hzero]
    · intro c2 hc2
      simp only [DB.findByCode, DB.deleteByCode, List.filter_filter]
      have hsame : ∀ r : MovieItem,
          ((r.movie_id == c2) && !(r.movie_id == pyStrip a)) = (r.movie_id == c2) := by
        intro r
        cases hb : r.movie_id == c2 with
        | false => simp [hb]
        | true =>
          have heq : r.movie_id = c2 := eq_of_beq hb
          simp [hb, heq, hc2]
      simp [hsame]

theorem spec_C6_witness :
    (clear_handler 2 ⟨2, 5, ["m"], none⟩
        ⟨[⟨1, "m", 10, 100, ""⟩, ⟨2, "k", 10, 101, ""⟩], 3⟩).1.findByCode "k" =
      (⟨[⟨1, "m", 10, 100, ""⟩, ⟨2, "k", 10, 101, ""⟩], 3⟩ : DB).findByCode "k" := by
  have h := ((spec_C6_clear 2 ⟨2, 5, ["m"], none⟩
    ⟨[⟨1, "m", 10, 100, ""⟩, ⟨2, "k", 10, 101, ""⟩], 3⟩ "m" [] rfl rfl).2
    (by decide)).2.2.2 "k" (by decide)
  exact h

/-- C9: save, clear and start all key the store by `args[0].strip()`: a save
under a raw argument `s` is found (and counted, hence cleared) under any raw
argument `t` with the same stripped value. -/
theorem spec_C9_strip (ADMIN_ID : Int) (u : Upd) (db : DB) (s t : String)
    (rest : List String) (m : Message) (hAdmin : u.user_id = ADMIN_ID)
    (hargs : u.args = s :: rest) (hreply : u.reply_to = some m) (hWF : db.WF)
    (hst : pyStrip s = pyStrip t) :
    (save_handler ADMIN_ID u db).1.findByCode (pyStrip t) =
      db.findByCode (pyStrip t) ++
        [⟨db.nextId, pyStrip s, u.chat_id, m.message_id, pyOrEmpty m.caption⟩] ∧
    (save_handler ADMIN_ID u db).1.countByCode (pyStrip t) =
      db.countByCode (pyStrip t) + 1 := by
  have hsave : (save_handler ADMIN_ID u db).1 =
      db.insert (pyStrip s) u.chat_id m.message_id (pyOrEmpty m.caption) := by
    simp [save_handler, hAdmin, hargs, hreply]
  have hWF2 := DB.WF_insert hWF (pyStrip s) u.chat_id m.message_id (pyOrEmpty m.caption)
  rw [hsave]
  constructor
  · rw [DB.findByCode_eq_filter hWF2, DB.findByCode_eq_filter hWF]
    simp [DB.insert, hst]
  · simp [DB.countByCode, DB.insert, hst]

theorem spec_C9_witness :
    (save_handler 2 ⟨2, 5, ["  m ", "x"], some ⟨42, some "cap"⟩⟩ ⟨[], 1⟩).1.countByCode
        (pyStrip "m  ") = 1 := by
  have h := (spec_C9_strip 2 ⟨2, 5, ["  m ", "x"], some ⟨42, some "cap"⟩⟩ ⟨[], 1⟩
    "  m " "m  " ["x"] ⟨42, some "cap"⟩ rfl rfl rfl ⟨by simp, by simp⟩ (by decide)).2
  rw [h]
  decide

/-- C2: a delivery for a code with a nonempty lookup invokes the copy
primitive exactly once per stored item, in stored order, whatever the
outcomes; the number of failure notices equals the number of failed copies,
and no failure stops the remaining attempts. -/
theorem spec_C2_copy_per_item (u : Upd) (db : DB) (out : Nat → CopyRes)
    (a : String) (rest : List String) (hargs : u.args = a :: rest)
    (hne : db.findByCode (pyStrip a) ≠ []) :
    (start_handler u db out).2.filter isCopy =
      (db.findByCode (pyStrip a)).map
        (fun r => Action.copyMessage u.chat_id r.from_chat_id r.from_message_id) ∧
    (start_handler u db out).2.countP isCopy = (db.findByCode (pyStrip a)).length ∧
    (start_handler u db out).2.countP isFailNotice =
      errCount out 0 (db.findByCode (pyStrip a)).length := by
  rw [start_handler_run u db out a rest hargs hne]
  have hcopy := deliverLoop_filter_copy (pyStrip a) u.chat_id out
    (db.findByCode (pyStrip a)) 0 []
  have hfail := deliverLoop_countP_fail (pyStrip a) u.chat_id out
    (db.findByCode (pyStrip a)) 0 []
  cases hse : (sentSpec u.chat_id out (db.findByCode (pyStrip a)) 0).isEmpty with
  | true =>
    simp only [hse, if_pos, List.append_nil]
    refine ⟨hcopy, ?_, hfail⟩
    rw [List.countP_eq_length_filter, hcopy, List.length_map]
  | false =>
    simp only [hse, Bool.false_eq_true, if_neg, List.filter_append, List.countP_append]
    refine ⟨?_, ?_, ?_⟩
    · rw [hcopy]
      simp [isCopy]
    · rw [List.countP_eq_length_filter, hcopy]
      simp [isCopy]
    · rw [hfail]
      simp [isFailNotice]

theorem spec_C2_witness :
    (start_handler ⟨7, 77, ["m"], none⟩ ⟨[⟨1, "m", 10, 100, ""⟩, ⟨2, "m", 10, 101, ""⟩], 3⟩
        (fun i => if i = 0 then CopyRes.err "boom" else CopyRes.ok 500)).2.countP isCopy =
      2 := by
  have h := (spec_C2_copy_per_item ⟨7, 77, ["m"], none⟩
    ⟨[⟨1, "m", 10, 100, ""⟩, ⟨2, "m", 10, 101, ""⟩], 3⟩
    (fun i => if i = 0 then CopyRes.err "boom" else CopyRes.ok 500)
    "m" [] rfl (by decide)).2.1
  rw [h]
  decide

/-- C3: the deferred auto-delete task is created iff at least one copy
succeeded; it is created once, with delay `AUTO_DELETE_SECONDS = 120`, after
the copy loop; its body sleeps that delay and then attempts one delete per
delivered message, whatever the individual delete outcomes. -/
theorem spec_C3_auto_delete (u : Upd) (db : DB) (out : Nat → CopyRes)
    (a : String) (rest : List String) (hargs : u.args = a :: rest) :
    (sentSpec u.chat_id out (db.findByCode (pyStrip a)) 0 = [] →
      (start_handler u db out).2.filter isSchedule = []) ∧
    (sentSpec u.chat_id out (db.findByCode (pyStrip a)) 0 ≠ [] →
      (start_handler u db out).2.filter isSchedule =
        [Action.scheduleDeleteLater
          (sentSpec u.chat_id out (db.findByCode (pyStrip a)) 0) AUTO_DELETE_SECONDS]) ∧
    (sentSpec u.chat_id out (db.findByCode (pyStrip a)) 0 ≠ [] ↔
      ∃ j, j < (db.findByCode (pyStrip a)).length ∧ (out j).isOk = true) ∧
    AUTO_DELETE_SECONDS = 120 ∧
    (∀ (lst : List (Int × Int)) (delay : Rat) (delOut : Nat → Bool),
      delete_later lst delay delOut =
        Action.sleep delay :: lst.map (fun p => Action.deleteMessage p.1 p.2)) := by
  have hiff : sentSpec u.chat_id out (db.findByCode (pyStrip a)) 0 ≠ [] ↔
      ∃ j, j < (db.findByCode (pyStrip a)).length ∧ (out j).isOk = true := by
    simpa using sentSpec_ne_nil_iff u.chat_id out (db.findByCode (pyStrip a)) 0
  have hdel : ∀ (lst : List (Int × Int)) (delay : Rat) (delOut : Nat → Bool),
      delete_later lst delay delOut =
        Action.sleep delay :: lst.map (fun p => Action.deleteMessage p.1 p.2) := by
    intro lst delay delOut
    rw [delete_later, delete_later_go_eq]
  by_cases hne : db.findByCode (pyStrip a) = []
  · have hsent : sentSpec u.chat_id out (db.findByCode (pyStrip a)) 0 = [] := by
      rw [hne]
      rfl
    refine ⟨fun _ => ?_, fun hc => absurd hsent hc, hiff, rfl, hdel⟩
    simp [start_handler, hargs, hne, isSchedule]
  · rw [start_handler_run u db out a rest hargs hne]
    have hsch := deliverLoop_filter_schedule (pyStrip a) u.chat_id out
      (db.findByCode (pyStrip a)) 0 []
    refine ⟨?_, ?_, hiff, rfl, hdel⟩
    · intro hsent
      simp only [hsent, List.isEmpty_nil, if_pos, List.append_nil]
      exact hsch
    · intro hsent
      have hse : (sentSpec u.chat_id out (db.findByCode (pyStrip a)) 0).isEmpty = false := by
        simpa [List.isEmpty_iff] using hsent
      simp only [hse, Bool.false_eq_true, if_neg, List.filter_append, hsch, List.nil_append]
      simp [isSchedule]

theorem spec_C3_witness :
    (start_handler ⟨7, 77, ["m"], none⟩ ⟨[⟨1, "m", 10, 100, ""⟩, ⟨2, "m", 10, 101, ""⟩], 3⟩
        (fun i => if i = 0 then CopyRes.err "boom" else CopyRes.ok 500)).2.filter isSchedule =
      [Action.scheduleDeleteLater
        (sentSpec 77 (fun i => if i = 0 then CopyRes.err "boom" else CopyRes.ok 500)
          ((⟨[⟨1, "m", 10, 100, ""⟩, ⟨2, "m", 10, 101, ""⟩], 3⟩ : DB).findByCode (pyStrip "m")) 0)
        AUTO_DELETE_SECONDS] :=
  (spec_C3_auto_delete ⟨7, 77, ["m"], none⟩
    ⟨[⟨1, "m", 10, 100, ""⟩, ⟨2, "m", 10, 101, ""⟩], 3⟩
    (fun i => if i = 0 then CopyRes.err "boom" else CopyRes.ok 500)
    "m" [] rfl).2.1 (by decide)

/-- The `j`-th inner gap (between copy `j` and copy `j+1`, counted from `i`)
is determined by the outcome of copy `j`: the 0.5 sleep on success, the
failure notice on failure. -/
theorem gapsSpec_get (uc : Int) (mid : String) (out : Nat → CopyRes) :
    ∀ (rows : List MovieItem) (i j : Nat), j + 1 < rows.length →
      (gapsSpec uc mid out rows i)[j]? =
        some (match out (i + j) with
              | CopyRes.ok _ => [Action.sleep (1 / 2)]
              | CopyRes.err e => [Action.sendMessage uc (failText mid e)]) := by
  intro rows
  induction rows with
  | nil => intro i j h; simp at h
  | cons r rest ih =>
    intro i j h
    cases rest with
    | nil => simp at h
    | cons r2 rest2 =>
      cases j with
      | zero => simp [gapsSpec]
      | succ j2 =>
        have h2 : j2 + 1 < (r2 :: rest2).length := by
          simp only [List.length_cons] at h ⊢
          omega
        have hstep : (gapsSpec uc mid out (r :: r2 :: rest2) i)[j2 + 1]? =
            (gapsSpec uc mid out (r2 :: rest2) (i + 1))[j2]? := by
          simp [gapsSpec]
        rw [hstep, ih (i + 1) j2 h2]
        have harith : i + 1 + j2 = i + (j2 + 1) := by omega
        rw [harith]

/-- C7 as stated is false: in a run where the first of two copies fails, the
gap between the two copy invocations contains no sleep at all — the
`asyncio.sleep(0.5)` sits inside the `try` after the copy, so a raised
exception skips it and only the failure notice separates the two copies. -/
theorem spec_C7_counterexample :
    ¬ (∀ g ∈ innerGaps
        (start_handler ⟨7, 77, ["m"], none⟩
          ⟨[⟨1, "m", 10, 100, ""⟩, ⟨2, "m", 10, 101, ""⟩], 3⟩
          (fun i => if i = 0 then CopyRes.err "boom" else CopyRes.ok 500)).2,
        ∃ x ∈ g, sleepGe (1 / 2) x = true) := by
  decide

/-- C7 amended: each inner gap is tied to the outcome of the earlier copy —
the run's gaps are exactly `gapsSpec`, so the gap after copy `j` is exactly
the 0.5 sleep when that copy succeeded, and exactly the one-line failure
notice (no sleep at all) when it failed. -/
theorem spec_C7_amended (u : Upd) (db : DB) (out : Nat → CopyRes)
    (a : String) (rest : List String) (hargs : u.args = a :: rest) :
    innerGaps (start_handler u db out).2 =
      gapsSpec u.chat_id (pyStrip a) out (db.findByCode (pyStrip a)) 0 ∧
    ∀ j : Nat, j + 1 < (db.findByCode (pyStrip a)).length →
      ((out j).isOk = true →
        (innerGaps (start_handler u db out).2)[j]? = some [Action.sleep (1 / 2)]) ∧
      (∀ e, out j = CopyRes.err e →
        (innerGaps (start_handler u db out).2)[j]? =
          some [Action.sendMessage u.chat_id (failText (pyStrip a) e)]) := by
  have heq : innerGaps (start_handler u db out).2 =
      gapsSpec u.chat_id (pyStrip a) out (db.findByCode (pyStrip a)) 0 := by
    by_cases hne : db.findByCode (pyStrip a) = []
    · have hstart : start_handler u db out =
          (db, [Action.replyText "Sorry, movie not found or expired."]) := by
        simp [start_handler, hargs, hne]
      rw [hstart, hne]
      simp [innerGaps, gapGo, isCopy, gapsSpec]
    · rw [start_handler_run u db out a rest hargs hne]
      obtain ⟨r, rows2, hrows⟩ : ∃ r rows2, db.findByCode (pyStrip a) = r :: rows2 := by
        cases h : db.findByCode (pyStrip a) with
        | nil => exact absurd h hne
        | cons r rows2 => exact ⟨r, rows2, rfl⟩
      have htail : ∀ x ∈ (if (sentSpec u.chat_id out (db.findByCode (pyStrip a)) 0).isEmpty
          then ([] : List Action)
          else [Action.scheduleDeleteLater
            (sentSpec u.chat_id out (db.findByCode (pyStrip a)) 0) AUTO_DELETE_SECONDS]),
          isCopy x = false := by
        cases hse : (sentSpec u.chat_id out (db.findByCode (pyStrip a)) 0).isEmpty <;>
          simp [hse, isCopy]
      rw [hrows] at htail ⊢
      rw [innerGaps, gapGo_deliver (pyStrip a) u.chat_id out rows2 r 0 [] [] _ htail]
      simp
  refine ⟨heq, ?_⟩
  intro j hj
  constructor
  · intro hok
    obtain ⟨sid, hout⟩ : ∃ sid, out j = CopyRes.ok sid := by
      cases ho : out j with
      | ok sid => exact ⟨sid, rfl⟩
      | err e => rw [ho] at hok; simp [CopyRes.isOk] at hok
    rw [heq, gapsSpec_get u.chat_id (pyStrip a) out _ 0 j hj]
    simp [hout]
  · intro e hout
    rw [heq, gapsSpec_get u.chat_id (pyStrip a) out _ 0 j hj]
    simp [hout]

theorem spec_C7_witness :
    innerGaps (start_handler ⟨7, 77, ["k"], none⟩
        ⟨[⟨1, "k", 10, 100, ""⟩, ⟨2, "k", 10, 101, ""⟩], 3⟩
        (fun i => if i = 0 then CopyRes.err "boom" else CopyRes.ok 500)).2 =
      gapsSpec 77 (pyStrip "k")
        (fun i => if i = 0 then CopyRes.err "boom" else CopyRes.ok 500)
        ((⟨[⟨1, "k", 10, 100, ""⟩, ⟨2, "k", 10, 101, ""⟩], 3⟩ : DB).findByCode (pyStrip "k"))
        0 :=
  (spec_C7_amended ⟨7, 77, ["k"], none⟩
    ⟨[⟨1, "k", 10, 100, ""⟩, ⟨2, "k", 10, 101, ""⟩], 3⟩
    (fun i => if i = 0 then CopyRes.err "boom" else CopyRes.ok 500) "k" [] rfl).1

/-- C8: the delivery workflow never mutates the store — a start command
returns it unchanged, and its deferred task consists only of a sleep and
transport delete calls; across all commands, the store changes only through
an admin save (one INSERT) or an admin clear (one bulk DELETE). -/
theorem spec_C8_frame (ADMIN_ID : Int) (c : Cmd) (db : DB) :
    (∀ u out, c = Cmd.start u out → (step ADMIN_ID c db).1 = db) ∧
    ((step ADMIN_ID c db).1 = db ∨
      (∃ u m a rst, c = Cmd.save u ∧ u.user_id = ADMIN_ID ∧ u.args = a :: rst ∧
        u.reply_to = some m ∧
        (step ADMIN_ID c db).1 =
          db.insert (pyStrip a) u.chat_id m.message_id (pyOrEmpty m.caption)) ∨
      (∃ u a rst, c = Cmd.clear u ∧ u.user_id = ADMIN_ID ∧ u.args = a :: rst ∧
        db.countByCode (pyStrip a) ≠ 0 ∧
        (step ADMIN_ID c db).1 = db.deleteByCode (pyStrip a))) ∧
    (∀ (lst : List (Int × Int)) (delay : Rat) (delOut : Nat → Bool) (x : Action),
      x ∈ delete_later lst delay delOut →
        (∃ q, x = Action.sleep q) ∨ ∃ p q, x = Action.deleteMessage p q) := by
  refine ⟨?_, ?_, ?_⟩
  · intro u out hc
    subst hc
    exact start_handler_fst u db out
  · cases c with
    | save u =>
      by_cases hAdmin : u.user_id = ADMIN_ID
      · cases hargs : u.args with
        | nil => left; simp [step, save_handler, hAdmin, hargs]
        | cons a rst =>
          cases hreply : u.reply_to with
          | none => left; simp [step, save_handler, hAdmin, hargs, hreply]
          | some m =>
            right; left
            refine ⟨u, m, a, rst, rfl, hAdmin, hargs, hreply, ?_⟩
            simp [step, save_handler, hAdmin, hargs, hreply]
      · left
        simp [step, save_handler, hAdmin]
    | clear u =>
      by_cases hAdmin : u.user_id = ADMIN_ID
      · cases hargs : u.args with
        | nil => left; simp [step, clear_handler, hAdmin, hargs]
        | cons a rst =>
          by_cases hcnt : db.countByCode (pyStrip a) = 0
          · left
            simp [step, clear_handler, hAdmin, hargs, hcnt]
          · right; right
            refine ⟨u, a, rst, rfl, hAdmin, hargs, hcnt, ?_⟩
            simp [step, clear_handler, hAdmin, hargs, hcnt]
      · left
        simp [step, clear_handler, hAdmin]
    | start u out => exact Or.inl (start_handler_fst u db out)
    | list u => exact Or.inl (list_handler_fst ADMIN_ID u db)
  · intro lst delay delOut x hx
    rw [delete_later, delete_later_go_eq] at hx
    rcases List.mem_cons.mp hx with hx | hx
    · exact Or.inl ⟨delay, hx⟩
    · obtain ⟨p, _, hp⟩ := List.mem_map.mp hx
      exact Or.inr ⟨p.1, p.2, hp.symm⟩

theorem spec_C8_witness :
    (step 2 (Cmd.start ⟨7, 77, ["m"], none⟩ (fun _ => CopyRes.ok 1))
        ⟨[⟨1, "m", 10, 100, ""⟩], 2⟩).1 =
      ⟨[⟨1, "m", 10, 100, ""⟩], 2⟩ :=
  (spec_C8_frame 2 (Cmd.start ⟨7, 77, ["m"], none⟩ (fun _ => CopyRes.ok 1))
    ⟨[⟨1, "m", 10, 100, ""⟩], 2⟩).1 ⟨7, 77, ["m"], none⟩ (fun _ => CopyRes.ok 1) rfl

end MovieBot
